import Mathlib

/-!
Verification development for the JumbledFramesReconstruction repository.

The similarity engine and the greedy sequence reconstructor are embedded
shallowly:

* image buffers (`Img`) carry their dimensions, channel count and a pixel
  function; scores are modelled as rationals (the Python code uses IEEE
  floats, but no claim here depends on rounding);
* the OpenCV primitives the engine calls (`cvtColor`, `calcHist`,
  `normalize`, `compareHist`, `Canny`, `resize`, `np.corrcoef`, the ORB
  matcher) are external collaborators; they are bundled into a `CV` record
  of abstract functions, so every theorem about the engine holds for an
  arbitrary behaviour of those collaborators unless a contract on them is
  stated explicitly (`ResizeDims`);
* the pure numpy parts (`np.mean` of a squared difference, flattening an
  edge map, `np.argmax`, boolean masking, the greedy loop, the pair list
  of the matrix builder) are translated directly from the source;
* fallible code (`frame_similarity` raising `ValueError`, the matrix
  builder propagating it) is modelled with `Except`;
* `np.random.randint(0, n)` in `greedy_nearest_neighbor` is modelled by an
  explicit `rand` argument holding the drawn value.
-/

namespace JFR

/-- A decoded raster buffer: `px r c ch` is the pixel value at row `r`,
column `c`, channel `ch` (from `frame_similarity.py`, frames are numpy
arrays of shape `(rows, cols, channels)`). -/
structure Img where
  rows : Nat
  cols : Nat
  channels : Nat
  px : Nat → Nat → Nat → ℚ

/-- The numpy `.shape` of a colour frame, a `(rows, cols, channels)` triple
(compared by `compute_mse` in `frame_similarity.py` line 65). -/
def shape (f : Img) : Nat × Nat × Nat := (f.rows, f.cols, f.channels)

/-- The numpy `.shape` of a grayscale image, a `(rows, cols)` pair
(compared by `compute_structural_similarity` in `frame_similarity.py`
line 96). -/
def grayShape (f : Img) : Nat × Nat := (f.rows, f.cols)

/-- The external OpenCV/numpy collaborators used by `frame_similarity.py`.
`resize img w h` models `cv2.resize(img, (w, h))`; `corrcoef` returns
`none` where `np.corrcoef` returns NaN. -/
structure CV where
  cvtHSV : Img → Img
  cvtGray : Img → Img
  resize : Img → Nat → Nat → Img
  calcHist : Img → List ℚ
  normalizeHist : List ℚ → List ℚ
  compareHistCorrel : List ℚ → List ℚ → ℚ
  canny : Img → Img
  corrcoef : List ℚ → List ℚ → Option ℚ
  featureMatchScore : Img → Img → ℚ

/-- Dimension contract of `cv2.resize`: the result has the requested
width/height and keeps the channel count. -/
def ResizeDims (cv : CV) : Prop :=
  ∀ (img : Img) (w h : Nat),
    (cv.resize img w h).rows = h ∧ (cv.resize img w h).cols = w ∧
      (cv.resize img w h).channels = img.channels

/-- Embedding of `compute_histogram_similarity` (`frame_similarity.py`
lines 16-46): HSV conversion, per-frame histogram, normalisation,
correlation comparison. Note: no resizing occurs in the source. -/
def compute_histogram_similarity (cv : CV) (frame1 frame2 : Img) : ℚ :=
  let hsv1 := cv.cvtHSV frame1
  let hsv2 := cv.cvtHSV frame2
  let hist1 := cv.normalizeHist (cv.calcHist hsv1)
  let hist2 := cv.normalizeHist (cv.calcHist hsv2)
  cv.compareHistCorrel hist1 hist2

/-- The pure numpy core of `compute_mse`:
`np.mean((frame1.astype(float) - frame2.astype(float)) ** 2)`, the mean
running over all pixels and channels of `frame1`'s shape. -/
def mseCore (frame1 frame2 : Img) : ℚ :=
  let terms := (List.range frame1.rows).flatMap fun r =>
    (List.range frame1.cols).flatMap fun c =>
      (List.range frame1.channels).map fun ch =>
        (frame1.px r c ch - frame2.px r c ch) ^ 2
  terms.sum / (terms.length : ℚ)

/-- Embedding of `compute_mse` (`frame_similarity.py` lines 49-73): resize
the second frame when the shapes differ, then return the negated mean
squared error. -/
def compute_mse (cv : CV) (frame1 frame2 : Img) : ℚ :=
  let frame2 :=
    (if shape frame1 ≠ shape frame2 then
      cv.resize frame2 frame1.cols frame1.rows
    else frame2);
  -(mseCore frame1 frame2)

/-- Embedding of `edges.flatten().astype(float) / 255.0` for a
single-channel edge map. -/
def flattenDiv255 (g : Img) : List ℚ :=
  (List.range g.rows).flatMap fun r =>
    (List.range g.cols).map fun c => g.px r c 0 / 255

/-- The comparison core of `compute_structural_similarity`: Canny edges of
two grayscale images, flattened, correlated, NaN mapped to `0.0`
(`frame_similarity.py` lines 99-114). -/
def structuralCore (cv : CV) (gray1 gray2 : Img) : ℚ :=
  let edges1 := cv.canny gray1
  let edges2 := cv.canny gray2
  match cv.corrcoef (flattenDiv255 edges1) (flattenDiv255 edges2) with
  | none => 0
  | some c => c

/-- Embedding of `compute_structural_similarity` (`frame_similarity.py`
lines 76-114): grayscale both frames, resize the second grayscale when the
grayscale shapes differ, then correlate the edge maps. -/
def compute_structural_similarity (cv : CV) (frame1 frame2 : Img) : ℚ :=
  let gray1 := cv.cvtGray frame1
  let gray2 := cv.cvtGray frame2
  let gray2 :=
    if grayShape gray1 ≠ grayShape gray2 then
      cv.resize gray2 gray1.cols gray1.rows
    else gray2
  structuralCore cv gray1 gray2

/-- Embedding of `compute_feature_similarity` (`frame_similarity.py` lines
117-171): grayscale both frames and hand them to the external ORB
detector/matcher, whose whole try/except body is a collaborator. -/
def compute_feature_similarity (cv : CV) (frame1 frame2 : Img) : ℚ :=
  cv.featureMatchScore (cv.cvtGray frame1) (cv.cvtGray frame2)

/-- The message of the `ValueError` raised by `frame_similarity` for an
unknown method string. -/
def unknownMethodMsg (m : String) : String :=
  "Unknown similarity method: " ++ m

/-- The five method strings accepted by `frame_similarity`. -/
def validMethods : List String :=
  ["histogram", "mse", "structural", "features", "combined"]

/-- Embedding of `frame_similarity` (`frame_similarity.py` lines 174-215):
dispatch on the method string; the `combined` branch is the weighted sum
`0.7 * histogram + 0.3 * structural`; any other string raises
`ValueError`, modelled as `Except.error`. -/
def frame_similarity (cv : CV) (frame1 frame2 : Img) (method : String) :
    Except String ℚ :=
  if method = "histogram" then
    Except.ok (compute_histogram_similarity cv frame1 frame2)
  else if method = "mse" then
    Except.ok (compute_mse cv frame1 frame2)
  else if method = "structural" then
    Except.ok (compute_structural_similarity cv frame1 frame2)
  else if method = "features" then
    Except.ok (compute_feature_similarity cv frame1 frame2)
  else if method = "combined" then
    Except.ok (7/10 * compute_histogram_similarity cv frame1 frame2 +
      3/10 * compute_structural_similarity cv frame1 frame2)
  else
    Except.error (unknownMethodMsg method)

/-- Embedding of `compute_similarity_pair` (`reconstruct_sequence.py`
lines 22-42): load both frames (the loader is the external
`load_frame`/`cv2.imread`, `none` = failed decode); if either load fails
return `(idx1, idx2, 0.0)`; otherwise compute the similarity (whose
`ValueError` propagates). -/
def compute_similarity_pair (loadFrame : String → Option Img) (cv : CV)
    (frame1Path frame2Path : String) (idx1 idx2 : Nat) (method : String) :
    Except String (Nat × Nat × ℚ) :=
  match loadFrame frame1Path, loadFrame frame2Path with
  | some frame1, some frame2 =>
      (frame_similarity cv frame1 frame2 method).map fun s => (idx1, idx2, s)
  | _, _ => Except.ok (idx1, idx2, 0)

/-- The upper-triangle pair list built by `compute_similarity_matrix`
(`reconstruct_sequence.py` lines 74-77): all `(i, j)` with
`0 ≤ i < j < n`, in the order the Python loops produce them. -/
def pairsList (n : Nat) : List (Nat × Nat) :=
  (List.range n).flatMap fun i =>
    (List.range' (i + 1) (n - (i + 1))).map fun j => (i, j)

/-- A single assignment `M[a][b] = v` on a function-represented matrix. -/
def setCell (M : Nat → Nat → ℚ) (a b : Nat) (v : ℚ) : Nat → Nat → ℚ :=
  fun x y => if x = a ∧ y = b then v else M x y

/-- Default path used to model Python list indexing inside the builder. -/
def emptyPath : String := ""

/-- The body of the matrix-filling loop: compute the similarity of one
upper-triangle pair and write it into both mirror cells
(`similarity_matrix[i, j] = similarity; similarity_matrix[j, i] =
similarity`). -/
def matStep (loadFrame : String → Option Img) (cv : CV)
    (framePaths : List String) (method : String)
    (M : Nat → Nat → ℚ) (ij : Nat × Nat) :
    Except String (Nat → Nat → ℚ) := do
  let r ← compute_similarity_pair loadFrame cv
    (framePaths.getD ij.1 emptyPath) (framePaths.getD ij.2 emptyPath)
    ij.1 ij.2 method
  pure (setCell (setCell M r.1 r.2.1 r.2.2) r.2.1 r.1 r.2.2)

/-- Embedding of `compute_similarity_matrix` (`reconstruct_sequence.py`
lines 45-107): start from the zero matrix with the diagonal filled with
`1.0`, then fold `matStep` over the upper-triangle pairs. The
multiprocessing branch performs exactly the same disjoint cell writes as
the sequential branch (only the completion order differs), so the
sequential fold is the common model of both branches. -/
def compute_similarity_matrix (loadFrame : String → Option Img) (cv : CV)
    (framePaths : List String) (method : String) :
    Except String (Nat → Nat → ℚ) :=
  (pairsList framePaths.length).foldlM
    (matStep loadFrame cv framePaths method)
    (fun i j => if i = j then 1 else 0)

/-- Maximum of a list of masked scores, with `⊥` playing the role of the
`-np.inf` written into masked entries. -/
def listMax : List (WithBot ℚ) → WithBot ℚ
  | [] => ⊥
  | x :: xs => max x (listMax xs)

/-- Embedding of `np.argmax`: the index of the first occurrence of the
maximum (numpy documents exactly this tie-break). On a list `x :: xs` the
head wins unless some later entry is strictly greater. -/
def npArgmax : List (WithBot ℚ) → Nat
  | [] => 0
  | x :: xs => if x < listMax xs then npArgmax xs + 1 else 0

/-- Embedding of `similarities = row.copy(); similarities[used] = -np.inf`
(`reconstruct_sequence.py` lines 150-153): entry `i` of the masked row is
`⊥` when `used i` holds and the row value otherwise. -/
def maskRow (row : List ℚ) (used : Nat → Bool) : List (WithBot ℚ) :=
  (List.range row.length).map fun i =>
    if used i then ⊥ else ((row.getD i 0 : ℚ) : WithBot ℚ)

/-- The body of the `while len(sequence) < n_frames` loop of
`greedy_nearest_neighbor` (`reconstruct_sequence.py` lines 148-163),
iterated `fuel` times. The Python loop appends exactly one index per
iteration, so starting from the one-element sequence it runs exactly
`n_frames - 1` iterations; `fuel` is that remaining iteration count. -/
def greedyLoop (M : List (List ℚ)) :
    Nat → Nat → (Nat → Bool) → List Nat → List Nat
  | 0, _, _, seq => seq
  | fuel + 1, current, used, seq =>
    let row := M.getD current []
    let sims := maskRow row used
    let next := npArgmax sims
    greedyLoop M fuel next (fun j => if j = next then true else used j)
      (seq ++ [next])

/-- Embedding of `greedy_nearest_neighbor` (`reconstruct_sequence.py`
lines 110-167). `start_idx` mirrors the optional Python argument; when it
is `none` the code draws `np.random.randint(0, n_frames)`, modelled by the
explicit `rand` argument holding the drawn value. -/
def greedy_nearest_neighbor (M : List (List ℚ)) (start_idx : Option Nat)
    (rand : Nat) : List Nat :=
  let n := M.length
  let current := start_idx.getD rand
  let used : Nat → Bool := fun j => decide (j = current)
  greedyLoop M (n - 1) current used [current]

/-- Modelled from the spec: `validate_reconstruction` is imported by
`main.py` (line 22) from `src.reconstruct_sequence` but is not defined
anywhere under the repository source, so the Validator is modelled from
the spec's contract (section 4.4): given the produced sequence and `N`,
confirm that the length equals `N` and that every index `0..N-1` appears
exactly once, returning a boolean. Being a pure function, it cannot
mutate its input. -/
def validate_reconstruction (seq : List Nat) (n : Nat) : Bool :=
  seq.length = n && (List.range n).all fun i => seq.count i = 1

/-- Python mean `np.mean` over a real-valued array. -/
noncomputable def npMean (xs : List ℝ) : ℝ := xs.sum / xs.length

/-- Python `np.std`: the square root of the mean squared deviation from
the mean (the ordinary, linear standard deviation). -/
noncomputable def npStd (xs : List ℝ) : ℝ :=
  Real.sqrt (npMean (xs.map fun x => (x - npMean xs) ^ 2))

/-- The scoring core of `optical_flow_similarity`
(`optical_flow_similarity.py` lines 55-77), applied to the per-pixel flow
magnitudes and angles produced by `cv2.cartToPolar`:
`avg_magnitude = np.mean(magnitude)`, `angle_std = np.std(angle)`,
`similarity = 0.7 * exp(-avg_magnitude / 10) + 0.3 * exp(-angle_std / 1)`. -/
noncomputable def opticalFlowScore (mags angles : List ℝ) : ℝ :=
  let avg_magnitude := npMean mags
  let angle_std := npStd angles
  let magnitude_score := Real.exp (-avg_magnitude / 10)
  let coherence_score := Real.exp (-angle_std / 1)
  7/10 * magnitude_score + 3/10 * coherence_score

/-- Modelled from the spec: the circular standard deviation of a list of
directions, in the standard directional-statistics sense
`sqrt (-2 * log R̄)` where `R̄` is the mean resultant length of the angles
viewed as unit vectors. The spec (section 4.1) describes the optical-flow
coherence term as using this quantity. -/
noncomputable def circStd (angles : List ℝ) : ℝ :=
  let c := npMean (angles.map Real.cos)
  let s := npMean (angles.map Real.sin)
  Real.sqrt (-2 * Real.log (Real.sqrt (c ^ 2 + s ^ 2)))

/-- Modelled from the spec: the optical-flow score as the spec states it,
`0.7 * exp(-m / 10) + 0.3 * exp(-a / 1)` with `m` the mean displacement
magnitude and `a` the circular standard deviation of the direction. -/
noncomputable def specOpticalFlowScore (mags angles : List ℝ) : ℝ :=
  7/10 * Real.exp (-(npMean mags) / 10) + 3/10 * Real.exp (-(circStd angles) / 1)

/-- A matrix is N-by-N: N rows, each of length N. -/
def IsSquare (M : List (List ℚ)) (n : Nat) : Prop :=
  M.length = n ∧ ∀ row ∈ M, row.length = n

/-- Symmetry of a function-represented matrix. -/
def SymmM (M : Nat → Nat → ℚ) : Prop := ∀ i j, M i j = M j i

/-- Every diagonal entry equals `1.0`. -/
def DiagOne (M : Nat → Nat → ℚ) : Prop := ∀ i, M i i = 1

/-- The golden-test similarity matrix of the spec (section 8), written
with exact rationals: `[[1,.9,.1,.2],[.9,1,.3,.1],[.1,.3,1,.8],[.2,.1,.8,1]]`.
All comparisons the greedy walk performs on it have the same outcome over
`ℚ` as over IEEE doubles, since the order of rationals and of their float
images agree here. -/
def M4 : List (List ℚ) :=
  [[1, mkRat 9 10, mkRat 1 10, mkRat 2 10],
   [mkRat 9 10, 1, mkRat 3 10, mkRat 1 10],
   [mkRat 1 10, mkRat 3 10, 1, mkRat 8 10],
   [mkRat 2 10, mkRat 1 10, mkRat 8 10, 1]]

/-- A synthetic frame of the given dimensions with 3 channels and zero
pixels. -/
def imgDim (r c : Nat) : Img := ⟨r, c, 3, fun _ _ _ => 0⟩

/-- A concrete 2-by-2 test frame. -/
def imgA : Img := imgDim 2 2

/-- A resize collaborator that sets the requested dimensions and keeps
channel count and pixel function; it satisfies `ResizeDims`. -/
def resizeDims : Img → Nat → Nat → Img :=
  fun img w h => ⟨h, w, img.channels, img.px⟩

/-- A concrete instantiation of the external collaborators, used by
witnesses. -/
def cv0 : CV :=
  ⟨id, id, resizeDims, fun _ => [], id, fun _ _ => 0, id, fun _ _ => none,
    fun _ _ => 0⟩

/-- A collaborator instantiation whose histogram depends on the row count
of the frame it is given; used to exhibit that the histogram metric is
applied to the second frame at its original size. -/
def cvH : CV :=
  ⟨id, id, resizeDims, fun img => [(img.rows : ℚ)], id, fun _ h2 => h2.sum,
    id, fun _ _ => none, fun _ _ => 0⟩

/-- A frame loader for which every load fails (`cv2.imread` returning
`None`). -/
def loadNone : String → Option Img := fun _ => none

/-- A one-element frame path list. -/
def pathsA : List String := ["frame_0000.jpg"]

/-- The `mse` method string. -/
def mseStr : String := "mse"

/-- The `histogram` method string. -/
def histStr : String := "histogram"

/-- The `opticalflow` method string passed by `main.py`. -/
def oflowStr : String := "opticalflow"

/-- The initial matrix of the builder: zeros with the diagonal filled with
`1.0` (`np.zeros` followed by `np.fill_diagonal`). -/
def initMat : Nat → Nat → ℚ := fun i j => if i = j then 1 else 0

/-- Modelled from the spec: the histogram-correlation metric has range
`[-1, 1]` (section 4.1), so its minimum sentinel value is `-1`. -/
def specHistogramMinSentinel : ℚ := -1

/-- Modelled from the spec: the negative-MSE metric's maximum
self-similarity, attained at identical frames, is `0` (section 4.1). -/
def specNegMseSelfMax : ℚ := 0

lemma le_listMax {xs : List (WithBot ℚ)} {a : WithBot ℚ} (h : a ∈ xs) :
    a ≤ listMax xs := by
  induction xs with
  | nil => cases h
  | cons x xs ih =>
    rcases List.mem_cons.mp h with rfl | h
    · exact le_max_left _ _
    · exact le_trans (ih h) (le_max_right _ _)

lemma getD_le_listMax (xs : List (WithBot ℚ)) (i : Nat) :
    xs.getD i ⊥ ≤ listMax xs := by
  by_cases h : i < xs.length
  · rw [List.getD_eq_getElem xs ⊥ h]
    exact le_listMax (xs.getElem_mem h)
  · rw [List.getD_eq_default xs ⊥ (Nat.le_of_not_lt h)]
    exact bot_le

lemma npArgmax_getD (xs : List (WithBot ℚ)) :
    xs.getD (npArgmax xs) ⊥ = listMax xs := by
  induction xs with
  | nil => rfl
  | cons x xs ih =>
    rw [npArgmax]
    by_cases h : x < listMax xs
    · rw [if_pos h, List.getD_cons_succ, ih, listMax, max_eq_right (le_of_lt h)]
    · rw [if_neg h, List.getD_cons_zero, listMax,
        max_eq_left (le_of_not_lt h)]

lemma npArgmax_lt_length {xs : List (WithBot ℚ)} (h : xs ≠ []) :
    npArgmax xs < xs.length := by
  induction xs with
  | nil => exact absurd rfl h
  | cons x xs ih =>
    rw [npArgmax]
    by_cases hx : x < listMax xs
    · have hxs : xs ≠ [] := by
        rintro rfl
        exact absurd hx (not_lt_bot)
      rw [if_pos hx]
      simpa using Nat.succ_lt_succ (ih hxs)
    · rw [if_neg hx]
      simp

lemma maskRow_length (row : List ℚ) (used : Nat → Bool) :
    (maskRow row used).length = row.length := by
  simp [maskRow]

lemma maskRow_getD (row : List ℚ) (used : Nat → Bool) {i : Nat}
    (h : i < row.length) :
    (maskRow row used).getD i ⊥ =
      if used i then ⊥ else ((row.getD i 0 : ℚ) : WithBot ℚ) := by
  have hlen : i < (maskRow row used).length := by rwa [maskRow_length]
  rw [List.getD_eq_getElem _ ⊥ hlen]
  simp [maskRow]

lemma greedyLoop_length (M : List (List ℚ)) :
    ∀ (k current : Nat) (used : Nat → Bool) (seq : List Nat),
      (greedyLoop M k current used seq).length = seq.length + k := by
  intro k
  induction k with
  | zero => intro current used seq; rfl
  | succ k ih =>
    intro current used seq
    rw [greedyLoop, ih]
    simp
    omega

lemma greedyLoop_append_tail (M : List (List ℚ)) :
    ∀ (k current : Nat) (used : Nat → Bool) (seq : List Nat),
      ∃ t, greedyLoop M k current used seq = seq ++ t := by
  intro k
  induction k with
  | zero => intro current used seq; exact ⟨[], by simp [greedyLoop]⟩
  | succ k ih =>
    intro current used seq
    rw [greedyLoop]
    obtain ⟨t, ht⟩ := ih (npArgmax (maskRow (M.getD current []) used))
      (fun j => if j = npArgmax (maskRow (M.getD current []) used) then true
        else used j)
      (seq ++ [npArgmax (maskRow (M.getD current []) used)])
    exact ⟨npArgmax (maskRow (M.getD current []) used) :: t, by
      rw [ht]; simp⟩

lemma greedyLoop_good (M : List (List ℚ)) (n : Nat) (hM : M.length = n)
    (hrow : ∀ row ∈ M, row.length = n) :
    ∀ (k current : Nat) (used : Nat → Bool) (seq : List Nat),
      seq.length + k = n →
      current < n →
      (∀ i, used i = true ↔ i ∈ seq) →
      seq.Nodup →
      (∀ i ∈ seq, i < n) →
      (greedyLoop M k current used seq).Nodup ∧
        ∀ i ∈ greedyLoop M k current used seq, i < n := by
  intro k
  induction k with
  | zero =>
    intro current used seq _ _ _ hnd hbound
    exact ⟨hnd, hbound⟩
  | succ k ih =>
    intro current used seq hlen hcur hused hnd hbound
    rw [greedyLoop]
    set row := M.getD current [] with hrowdef
    have hrowmem : row ∈ M := by
      rw [hrowdef, List.getD_eq_getElem M [] (by omega)]
      exact M.getElem_mem (by omega)
    have hrlen : row.length = n := hrow row hrowmem
    set sims := maskRow row used with hsims
    have hslen : sims.length = n := by rw [hsims, maskRow_length, hrlen]
    -- there is an unvisited index below n
    have hseqlt : seq.length < n := by omega
    have hex : ∃ i0, i0 < n ∧ i0 ∉ seq := by
      by_contra hall
      push_neg at hall
      have hsub : List.range n ⊆ seq := by
        intro i hi
        exact hall i (List.mem_range.mp hi)
      have := (List.subperm_of_subset (List.nodup_range n) hsub).length_le
      simp at this
      omega
    obtain ⟨i0, hi0n, hi0⟩ := hex
    have husedi0 : used i0 = false := by
      rcases Bool.eq_false_or_eq_true (used i0) with h | h
      · exact absurd ((hused i0).mp h) hi0
      · exact h
    have hval : sims.getD i0 ⊥ = ((row.getD i0 0 : ℚ) : WithBot ℚ) := by
      rw [hsims, maskRow_getD row used (by omega), husedi0]
      simp
    have hmaxne : listMax sims ≠ ⊥ := by
      intro hbot
      have := getD_le_listMax sims i0
      rw [hval, hbot, le_bot_iff] at this
      exact WithBot.coe_ne_bot this
    set next := npArgmax sims with hnext
    have hnextlt : next < n := by
      by_contra hge
      have : sims.getD next ⊥ = ⊥ :=
        List.getD_eq_default sims ⊥ (by omega)
      rw [npArgmax_getD] at this
      exact hmaxne this
    have hnextnew : next ∉ seq := by
      intro hmem
      have husednext : used next = true := (hused next).mpr hmem
      have : sims.getD next ⊥ = ⊥ := by
        rw [hsims, maskRow_getD row used (by omega), husednext]
        simp
      rw [npArgmax_getD] at this
      exact hmaxne this
    have hnd' : (seq ++ [next]).Nodup := by
      refine hnd.append (List.nodup_singleton next) ?_
      intro a ha hb
      rw [List.mem_singleton] at hb
      subst hb
      exact hnextnew ha
    refine ih next (fun j => if j = next then true else used j)
      (seq ++ [next]) ?_ hnextlt ?_ hnd' ?_
    · simp only [List.length_append, List.length_singleton]
      omega
    · intro i
      by_cases hi : i = next
      · subst hi
        simp
      · simp only [if_neg hi]
        rw [hused i]
        simp [hi]
    · intro i hi
      rcases List.mem_append.mp hi with h | h
      · exact hbound i h
      · rw [List.mem_singleton] at h
        subst h
        exact hnextlt

/-- Core permutation fact about the embedded greedy walk, shared by the
claim theorems: with a valid start index on an N-by-N matrix the result
has length N, is a permutation of `[0, N)`, and contains every index
below N exactly once. -/
lemma greedy_perm_core (M : List (List ℚ)) (n : Nat) (hn : 1 ≤ n)
    (hsq : IsSquare M n) (s rand : Nat) (hs : s < n) :
    (greedy_nearest_neighbor M (some s) rand).length = n ∧
      List.Perm (greedy_nearest_neighbor M (some s) rand) (List.range n) := by
  obtain ⟨hM, hrow⟩ := hsq
  have hres : greedy_nearest_neighbor M (some s) rand =
      greedyLoop M (n - 1) s (fun j => decide (j = s)) [s] := by
    rw [greedy_nearest_neighbor, hM]
    rfl
  have hgood := greedyLoop_good M n hM hrow (n - 1) s
    (fun j => decide (j = s)) [s]
    (by simp; omega) hs
    (by intro i; simp)
    (List.nodup_singleton s)
    (by intro i hi; rw [List.mem_singleton] at hi; subst hi; exact hs)
  have hlen : (greedy_nearest_neighbor M (some s) rand).length = n := by
    rw [hres, greedyLoop_length]
    simp
    omega
  refine ⟨hlen, ?_⟩
  have hnd := (hres ▸ hgood.1)
  have hbound := (hres ▸ hgood.2)
  have hsub : greedy_nearest_neighbor M (some s) rand ⊆ List.range n := by
    intro i hi
    exact List.mem_range.mpr (hbound i hi)
  have hsp := List.subperm_of_subset hnd hsub
  exact hsp.perm_of_length_le (by simp [hlen])

/-- C1: for every N ≥ 1 and every N-by-N similarity matrix, the greedy
reconstructor with a valid start index `0 ≤ s < N` performs its selection
loop exactly N-1 times (each iteration appends exactly one index, so the
final length N accounts for them all) and returns a permutation of
`[0, N)`: length N, every index `0..N-1` appearing exactly once. -/
theorem greedy_returns_permutation (M : List (List ℚ)) (n : Nat)
    (hn : 1 ≤ n) (hsq : IsSquare M n) (s rand : Nat) (hs : s < n) :
    (greedy_nearest_neighbor M (some s) rand).length = n ∧
      List.Perm (greedy_nearest_neighbor M (some s) rand) (List.range n) ∧
      ∀ i < n, (greedy_nearest_neighbor M (some s) rand).count i = 1 := by
  obtain ⟨hlen, hperm⟩ := greedy_perm_core M n hn hsq s rand hs
  refine ⟨hlen, hperm, ?_⟩
  intro i hi
  rw [hperm.count_eq]
  exact List.count_eq_one_of_mem (List.nodup_range n)
    (List.mem_range.mpr hi)

/-- Witness for C1 at the concrete 2-by-2 identity-like matrix with start
index 0. -/
theorem greedy_returns_permutation_witness :
    (greedy_nearest_neighbor [[1, 0], [0, 1]] (some 0) 0).length = 2 ∧
      List.Perm (greedy_nearest_neighbor [[1, 0], [0, 1]] (some 0) 0) (List.range 2) ∧
      ∀ i < 2, (greedy_nearest_neighbor [[1, 0], [0, 1]] (some 0) 0).count i
        = 1 :=
  greedy_returns_permutation [[1, 0], [0, 1]] 2 (by decide)
    ⟨by decide, by decide⟩ 0 0 (by decide)

/-- C3 counterexample: with no start index supplied and the random draw
`np.random.randint(0, 2)` coming out as 1 (a possible draw), the greedy
walk on a concrete 2-by-2 matrix starts at index 1, not at index 0 as the
claim states, and returns `[1, 0]`. -/
theorem greedy_default_start_counterexample :
    greedy_nearest_neighbor [[1, 0], [0, 1]] none 1 = [1, 0] ∧
      (greedy_nearest_neighbor [[1, 0], [0, 1]] none 1).headD 0 ≠ 0 := by
  constructor
  · decide
  · decide

/-- C3 (amended): when no start index is supplied, the walk starts at the
randomly drawn index; determinism holds for a supplied start index: the
result does not depend on the random draw at all, and the walk starts at
the supplied index. -/
theorem greedy_fixed_start_deterministic (M : List (List ℚ))
    (s r1 r2 : Nat) :
    greedy_nearest_neighbor M (some s) r1 =
        greedy_nearest_neighbor M (some s) r2 ∧
      (greedy_nearest_neighbor M (some s) r1).headD s = s := by
  constructor
  · rfl
  · show (greedyLoop M (M.length - 1) s (fun j => decide (j = s))
      [s]).headD s = s
    obtain ⟨t, ht⟩ := greedyLoop_append_tail M (M.length - 1) s
      (fun j => decide (j = s)) [s]
    rw [ht]
    simp

/-- C4: on the golden 4-by-4 matrix of the spec with start index 0, the
greedy walk returns exactly `[0, 1, 2, 3]` (step 1 picks the 0.9 in row 0;
step 2 picks the 0.3 in row 1 among the unvisited; step 3 picks the
remaining index 3), which is one of the two sequences the claim allows. -/
theorem greedy_golden_matrix :
    greedy_nearest_neighbor M4 (some 0) 0 = [0, 1, 2, 3] ∧
      (greedy_nearest_neighbor M4 (some 0) 0 = [0, 1, 2, 3] ∨
        greedy_nearest_neighbor M4 (some 0) 0 = [0, 1, 3, 2]) := by
  have h : greedy_nearest_neighbor M4 (some 0) 0 = [0, 1, 2, 3] := by decide
  exact ⟨h, Or.inl h⟩

/-- C9: the Validator, modelled from the spec because
`validate_reconstruction` is imported by `main.py` but not defined under
the repository source, returns `true` exactly when the sequence length
equals N and every index `0..N-1` appears exactly once; in particular it
returns `false` whenever an index is duplicated or missing. As a pure
function it does not mutate its input. -/
theorem validate_reconstruction_correct (seq : List Nat) (n : Nat) :
    validate_reconstruction seq n = true ↔
      seq.length = n ∧ ∀ i < n, seq.count i = 1 := by
  simp [validate_reconstruction]

/-- C10: `frame_similarity` returns a score for each of the five accepted
method strings and raises `ValueError` (modelled as `Except.error`) for
every other method string. -/
theorem frame_similarity_dispatch (cv : CV) (frame1 frame2 : Img) :
    (∀ m ∈ validMethods,
        ∃ q, frame_similarity cv frame1 frame2 m = Except.ok q) ∧
      ∀ m, m ∉ validMethods →
        frame_similarity cv frame1 frame2 m =
          Except.error (unknownMethodMsg m) := by
  constructor
  · intro m hm
    simp only [validMethods, List.mem_cons, List.mem_singleton,
      List.not_mem_nil, or_false] at hm
    rcases hm with rfl | rfl | rfl | rfl | rfl <;> exact ⟨_, rfl⟩
  · intro m hm
    simp only [validMethods, List.mem_cons, List.mem_singleton,
      List.not_mem_nil, or_false, not_or] at hm
    obtain ⟨h1, h2, h3, h4, h5⟩ := hm
    simp [frame_similarity, h1, h2, h3, h4, h5]

/-- Witness for C10: the `mse` method yields a score and the method string
`opticalflow` (the one `main.py` actually passes down) yields the
`ValueError`. -/
theorem frame_similarity_dispatch_witness :
    (∃ q, frame_similarity cv0 imgA imgA mseStr = Except.ok q) ∧
      frame_similarity cv0 imgA imgA oflowStr =
        Except.error (unknownMethodMsg oflowStr) :=
  ⟨(frame_similarity_dispatch cv0 imgA imgA).1 mseStr (by decide),
    (frame_similarity_dispatch cv0 imgA imgA).2 oflowStr (by decide)⟩

/-- C2 counterexample: when a frame fails to load, the pair function
returns the fixed score `0.0`, which is not the histogram metric's
minimum sentinel value `-1` (its range is `[-1, 1]` per the spec). -/
theorem unreadable_frame_not_metric_min :
    compute_similarity_pair loadNone cv0 emptyPath emptyPath 0 1
        histStr = Except.ok (0, 1, 0) ∧
      (0 : ℚ) ≠ specHistogramMinSentinel := by
  constructor
  · rfl
  · decide

/-- C2 (amended): whenever at least one of the two frames fails to load,
`compute_similarity_pair` returns `Except.ok (idx1, idx2, 0.0)` — the
fixed sentinel `0.0`, not the metric's minimum — for every method string
and every behaviour of the collaborators, so the pipeline continues
without an error. -/
theorem unreadable_frame_sentinel (loadFrame : String → Option Img)
    (cv : CV) (p1 p2 : String) (idx1 idx2 : Nat) (method : String)
    (h : loadFrame p1 = none ∨ loadFrame p2 = none) :
    compute_similarity_pair loadFrame cv p1 p2 idx1 idx2 method =
      Except.ok (idx1, idx2, 0) := by
  rcases h with h | h
  · rw [compute_similarity_pair, h]
  · rw [compute_similarity_pair, h]
    cases loadFrame p1 <;> rfl

/-- Witness for C2 at the always-failing loader. -/
theorem unreadable_frame_sentinel_witness :
    compute_similarity_pair loadNone cv0 emptyPath emptyPath 2 3
        mseStr = Except.ok (2, 3, 0) :=
  unreadable_frame_sentinel loadNone cv0 emptyPath emptyPath 2 3
    mseStr (Or.inl rfl)

lemma pairsList_fst_lt_snd {n : Nat} {p : Nat × Nat}
    (h : p ∈ pairsList n) : p.1 < p.2 := by
  simp only [pairsList, List.mem_flatMap, List.mem_map] at h
  obtain ⟨i, _, j, hj, rfl⟩ := h
  have := (List.mem_range'_1.mp hj).1
  omega

lemma pair_ok_indices {loadFrame : String → Option Img} {cv : CV}
    {p1 p2 : String} {idx1 idx2 : Nat} {method : String}
    {r : Nat × Nat × ℚ}
    (h : compute_similarity_pair loadFrame cv p1 p2 idx1 idx2 method =
      Except.ok r) :
    r.1 = idx1 ∧ r.2.1 = idx2 := by
  rw [compute_similarity_pair] at h
  cases h1 : loadFrame p1 with
  | none =>
    rw [h1] at h
    cases loadFrame p2 <;> {
      simp only [Except.ok.injEq] at h
      subst h
      exact ⟨rfl, rfl⟩ }
  | some f1 =>
    rw [h1] at h
    cases h2 : loadFrame p2 with
    | none =>
      rw [h2] at h
      simp only [Except.ok.injEq] at h
      subst h
      exact ⟨rfl, rfl⟩
    | some f2 =>
      rw [h2] at h
      have h4 : Except.map (fun s => (idx1, idx2, s))
          (frame_similarity cv f1 f2 method) = Except.ok r := h
      cases h3 : frame_similarity cv f1 f2 method with
      | error e =>
        rw [h3] at h4
        exact absurd h4 (by simp [Except.map])
      | ok s =>
        rw [h3] at h4
        simp only [Except.map, Except.ok.injEq] at h4
        subst h4
        exact ⟨rfl, rfl⟩

lemma setCell_symm {M : Nat → Nat → ℚ} {a b : Nat} {v : ℚ}
    (h : SymmM M) : SymmM (setCell (setCell M a b v) b a v) := by
  intro i j
  simp only [setCell]
  split_ifs with h1 h2 h3 h4 <;> first | rfl | exact h i j | tauto

lemma setCell_diag {M : Nat → Nat → ℚ} {a b : Nat} {v : ℚ} (hab : a ≠ b)
    (h : DiagOne M) : DiagOne (setCell (setCell M a b v) b a v) := by
  intro i
  simp only [setCell]
  split_ifs with h1 h2
  · exact absurd (h1.2.symm.trans h1.1) hab
  · exact absurd (h2.1.symm.trans h2.2) hab
  · exact h i

lemma matStep_invariant {loadFrame : String → Option Img} {cv : CV}
    {paths : List String} {method : String} {M0 M1 : Nat → Nat → ℚ}
    {ij : Nat × Nat}
    (h : matStep loadFrame cv paths method M0 ij = Except.ok M1)
    (hne : ij.1 ≠ ij.2) (hsym : SymmM M0) (hdiag : DiagOne M0) :
    SymmM M1 ∧ DiagOne M1 := by
  rw [matStep] at h
  cases hr : compute_similarity_pair loadFrame cv
      (paths.getD ij.1 emptyPath) (paths.getD ij.2 emptyPath)
      ij.1 ij.2 method with
  | error e =>
    rw [hr] at h
    exact absurd h (by simp [Bind.bind, Except.bind])
  | ok r =>
    rw [hr] at h
    have hM1 : M1 = setCell (setCell M0 r.1 r.2.1 r.2.2) r.2.1 r.1 r.2.2 := by
      simpa [Bind.bind, Except.bind, Pure.pure, Except.pure] using h.symm
    obtain ⟨hi, hj⟩ := pair_ok_indices hr
    have hrne : r.1 ≠ r.2.1 := by rw [hi, hj]; exact hne
    subst hM1
    exact ⟨setCell_symm hsym, setCell_diag hrne hdiag⟩

lemma foldlM_matStep_invariant (loadFrame : String → Option Img)
    (cv : CV) (paths : List String) (method : String) :
    ∀ (l : List (Nat × Nat)), (∀ p ∈ l, p.1 ≠ p.2) →
      ∀ (M0 : Nat → Nat → ℚ), SymmM M0 → DiagOne M0 →
        ∀ M, l.foldlM (matStep loadFrame cv paths method) M0 =
            Except.ok M →
          SymmM M ∧ DiagOne M := by
  intro l
  induction l with
  | nil =>
    intro _ M0 hsym hdiag M h
    simp only [List.foldlM_nil, Pure.pure, Except.pure,
      Except.ok.injEq] at h
    subst h
    exact ⟨hsym, hdiag⟩
  | cons x xs ih =>
    intro hne M0 hsym hdiag M h
    rw [List.foldlM_cons] at h
    cases hx : matStep loadFrame cv paths method M0 x with
    | error e =>
      rw [hx] at h
      exact absurd h (by simp [Bind.bind, Except.bind])
    | ok M1 =>
      rw [hx] at h
      have h' : xs.foldlM (matStep loadFrame cv paths method) M1 =
          Except.ok M := h
      obtain ⟨hsym1, hdiag1⟩ := matStep_invariant hx
        (hne x (List.mem_cons_self x xs)) hsym hdiag
      exact ih (fun p hp => hne p (List.mem_cons_of_mem x hp)) M1 hsym1
        hdiag1 M h'

/-- Core invariant of the matrix builder, shared by the claim theorems:
any matrix it returns is symmetric and has every diagonal entry equal to
`1.0`. -/
lemma similarity_matrix_invariant {loadFrame : String → Option Img}
    {cv : CV} {paths : List String} {method : String}
    {M : Nat → Nat → ℚ}
    (h : compute_similarity_matrix loadFrame cv paths method =
      Except.ok M) :
    SymmM M ∧ DiagOne M := by
  rw [compute_similarity_matrix] at h
  refine foldlM_matStep_invariant loadFrame cv paths method
    (pairsList paths.length) ?_ _ ?_ ?_ M h
  · intro p hp
    exact Nat.ne_of_lt (pairsList_fst_lt_snd hp)
  · intro i j
    simp only
    by_cases hij : i = j
    · subst hij; rfl
    · rw [if_neg hij, if_neg (fun h => hij h.symm)]
  · intro i
    simp

/-- C6: every matrix returned by the builder is symmetric: each
upper-triangle pair's score is written into both mirror cells, and the
initial diagonal-filled zero matrix is symmetric. -/
theorem similarity_matrix_symmetric (loadFrame : String → Option Img)
    (cv : CV) (paths : List String) (method : String)
    (M : Nat → Nat → ℚ)
    (h : compute_similarity_matrix loadFrame cv paths method =
      Except.ok M) :
    ∀ i j, M i j = M j i :=
  (similarity_matrix_invariant h).1

/-- Witness for C6 at a concrete one-frame run. -/
theorem similarity_matrix_symmetric_witness :
    initMat 0 1 = initMat 1 0 :=
  similarity_matrix_symmetric loadNone cv0 pathsA mseStr initMat rfl 0 1

/-- The negative-MSE metric attains its maximum `0` at identical frames:
`compute_mse` of a frame with itself is `0` (no resize happens, and every
squared pixel difference vanishes). -/
lemma compute_mse_self (cv : CV) (f : Img) : compute_mse cv f f = 0 := by
  have hcore : mseCore f f = 0 := by
    rw [mseCore]
    have hsum : ((List.range f.rows).flatMap fun r =>
        (List.range f.cols).flatMap fun c =>
          (List.range f.channels).map fun ch =>
            (f.px r c ch - f.px r c ch) ^ 2).sum = 0 := by
      apply List.sum_eq_zero
      intro x hx
      simp only [List.mem_flatMap, List.mem_map] at hx
      obtain ⟨r, _, c, _, ch, _, hx⟩ := hx
      simp [← hx]
    rw [hsum, zero_div]
  rw [compute_mse]
  simp [hcore]

/-- C7 counterexample: a concrete builder run with the `mse` metric
returns a matrix whose entry `[0][0]` is `1.0`, while the negative-MSE
metric's self-similarity maximum — attained at identical frames — is `0`,
so the diagonal does not equal the metric's defined maximum for the
negative-MSE metric. -/
theorem diagonal_not_metric_max :
    compute_similarity_matrix loadNone cv0 pathsA mseStr =
        Except.ok initMat ∧
      initMat 0 0 = 1 ∧ compute_mse cv0 imgA imgA = specNegMseSelfMax ∧
      (1 : ℚ) ≠ specNegMseSelfMax := by
  refine ⟨rfl, rfl, ?_, by decide⟩
  rw [compute_mse_self]
  rfl

/-- C7 (amended): every matrix returned by the builder has `1.0` at every
diagonal entry, for every selected metric — the builder fills the
diagonal with `1.0` unconditionally and the pair loop never writes a
diagonal cell; for the negative-MSE metric this `1.0` differs from the
metric's self-similarity maximum `0`. -/
theorem similarity_matrix_diagonal_one (loadFrame : String → Option Img)
    (cv : CV) (paths : List String) (method : String)
    (M : Nat → Nat → ℚ)
    (h : compute_similarity_matrix loadFrame cv paths method =
      Except.ok M) :
    ∀ i, M i i = 1 :=
  (similarity_matrix_invariant h).2

/-- Witness for C7 (amended) at a concrete one-frame run. -/
theorem similarity_matrix_diagonal_one_witness : initMat 0 0 = 1 :=
  similarity_matrix_diagonal_one loadNone cv0 pathsA mseStr initMat rfl 0

/-- C5 counterexample: for a collaborator instantiation satisfying the
resize dimension contract and two frames of different shapes, the
histogram metric's result on the original frames differs from its result
on the pre-resampled frames, so `compute_histogram_similarity` cannot be
resampling the second frame before applying the metric (the source indeed
contains no resize there), refuting the claim that the resize policy
holds for all four metrics alike. -/
theorem resize_policy_counterexample :
    shape (imgDim 2 2) ≠ shape (imgDim 5 5) ∧
      ResizeDims cvH ∧
      compute_histogram_similarity cvH (imgDim 2 2) (imgDim 5 5) ≠
        compute_histogram_similarity cvH (imgDim 2 2)
          (cvH.resize (imgDim 5 5) (imgDim 2 2).cols (imgDim 2 2).rows) := by
  refine ⟨by decide, fun img w h => ⟨rfl, rfl, rfl⟩,
    by norm_num [compute_histogram_similarity, cvH, imgDim, resizeDims]⟩

/-- C5 (amended): the resampling policy holds only for the MSE and
structural metrics. Under the resize dimension contract and matching
channel counts, `compute_mse` on frames of different shapes equals
`compute_mse` on the pre-resampled pair (the second frame is resized to
the first's dimensions before the comparison), and the structural metric
hands its comparison core the second frame's grayscale resized to the
first grayscale's dimensions whenever those differ. The histogram and
optical-flow metrics perform no resampling. -/
theorem resize_policy_mse_structural (cv : CV) (hres : ResizeDims cv)
    (frame1 frame2 : Img) (hch : frame1.channels = frame2.channels)
    (hdiff : shape frame1 ≠ shape frame2) :
    compute_mse cv frame1 frame2 =
        compute_mse cv frame1 (cv.resize frame2 frame1.cols frame1.rows) ∧
      (grayShape (cv.cvtGray frame1) ≠ grayShape (cv.cvtGray frame2) →
        compute_structural_similarity cv frame1 frame2 =
          structuralCore cv (cv.cvtGray frame1)
            (cv.resize (cv.cvtGray frame2) (cv.cvtGray frame1).cols
              (cv.cvtGray frame1).rows)) := by
  obtain ⟨hr, hc, hch2⟩ := hres frame2 frame1.cols frame1.rows
  constructor
  · have hsh : shape frame1 =
        shape (cv.resize frame2 frame1.cols frame1.rows) := by
      simp [shape, Prod.mk.injEq, hr, hc, hch2, hch]
    simp only [compute_mse]
    rw [if_pos hdiff, if_neg (not_not_intro hsh)]
  · intro hg
    simp only [compute_structural_similarity]
    rw [if_pos hg]

/-- Witness for C5 (amended) at concrete frames of shapes 2-by-2 and
5-by-5. -/
theorem resize_policy_mse_structural_witness :
    compute_mse cv0 (imgDim 2 2) (imgDim 5 5) =
        compute_mse cv0 (imgDim 2 2)
          (cv0.resize (imgDim 5 5) (imgDim 2 2).cols (imgDim 2 2).rows) ∧
      (grayShape (cv0.cvtGray (imgDim 2 2)) ≠
          grayShape (cv0.cvtGray (imgDim 5 5)) →
        compute_structural_similarity cv0 (imgDim 2 2) (imgDim 5 5) =
          structuralCore cv0 (cv0.cvtGray (imgDim 2 2))
            (cv0.resize (cv0.cvtGray (imgDim 5 5))
              (cv0.cvtGray (imgDim 2 2)).cols
              (cv0.cvtGray (imgDim 2 2)).rows)) :=
  resize_policy_mse_structural cv0 (fun img w h => ⟨rfl, rfl, rfl⟩)
    (imgDim 2 2) (imgDim 5 5) rfl (by decide)

/-- Embedding of `optical_flow_similarity`
(`optical_flow_similarity.py` lines 12-77): grayscale both frames, run the
external Farneback flow and `cv2.cartToPolar` (bundled as the
`flowPolar` collaborator returning the per-pixel magnitude and angle
arrays), then score them with `opticalFlowScore`. Note: no resizing
occurs in the source. -/
noncomputable def optical_flow_similarity (cv : CV)
    (flowPolar : Img → Img → List ℝ × List ℝ) (frame1 frame2 : Img) : ℝ :=
  let polar := flowPolar (cv.cvtGray frame1) (cv.cvtGray frame2)
  opticalFlowScore polar.1 polar.2

lemma npMean_pair (a b : ℝ) : npMean [a, b] = (a + b) / 2 := by
  simp [npMean]
  try ring

lemma npStd_pair_zero (x : ℝ) (hx : 0 ≤ x) : npStd [0, x] = x / 2 := by
  have h1 : npMean [(0:ℝ), x] = x / 2 := by
    rw [npMean_pair]
    ring
  rw [npStd]
  simp only [List.map_cons, List.map_nil, h1]
  have h2 : npMean [((0:ℝ) - x / 2) ^ 2, (x - x / 2) ^ 2] = (x / 2) ^ 2 := by
    rw [npMean_pair]
    ring
  rw [h2, Real.sqrt_sq (by positivity)]

lemma circStd_golden :
    circStd [0, 3 * Real.pi / 2] = Real.sqrt (Real.log 2) := by
  have hsplit : (3:ℝ) * Real.pi / 2 = Real.pi / 2 + Real.pi := by ring
  have hc : Real.cos (3 * Real.pi / 2) = 0 := by
    rw [hsplit, Real.cos_add_pi, Real.cos_pi_div_two, neg_zero]
  have hs : Real.sin (3 * Real.pi / 2) = -1 := by
    rw [hsplit, Real.sin_add_pi, Real.sin_pi_div_two]
  rw [circStd]
  simp only [List.map_cons, List.map_nil, Real.cos_zero, Real.sin_zero,
    hc, hs]
  rw [npMean_pair, npMean_pair]
  have h3 : (((1:ℝ) + 0) / 2) ^ 2 + ((0 + -1) / 2) ^ 2 = 1/2 := by norm_num
  rw [h3]
  have h4 : Real.log (Real.sqrt (1/2)) = -(Real.log 2) / 2 := by
    rw [Real.log_sqrt (by norm_num)]
    rw [show (1:ℝ)/2 = 2⁻¹ by norm_num, Real.log_inv]
    try ring
  rw [h4]
  congr 1
  ring

lemma sqrt_log_two_le_one : Real.sqrt (Real.log 2) ≤ 1 := by
  have h := Real.log_le_sub_one_of_pos (by norm_num : (0:ℝ) < 2)
  calc Real.sqrt (Real.log 2) ≤ Real.sqrt 1 :=
        Real.sqrt_le_sqrt (by linarith)
    _ = 1 := Real.sqrt_one

/-- C8 counterexample: on the realizable flow field with per-pixel flow
vectors `(1, 0)` and `(0, -1)` — magnitudes `[1, 1]`, angles
`[0, 3π/2]` — the code's score (which uses `np.std`, the ordinary linear
standard deviation of the angle array) differs from the spec's formula
with the circular standard deviation of direction: the linear deviation
is `3π/4 > 1` while the circular one is `√(log 2) ≤ 1`, and `exp` is
injective. -/
theorem optical_flow_not_circular_std :
    opticalFlowScore [1, 1] [0, 3 * Real.pi / 2] ≠
      specOpticalFlowScore [1, 1] [0, 3 * Real.pi / 2] := by
  have hstd : npStd [0, 3 * Real.pi / 2] = 3 * Real.pi / 2 / 2 :=
    npStd_pair_zero _ (by positivity)
  have hlt1 : (1:ℝ) < 3 * Real.pi / 2 / 2 := by
    have := Real.pi_gt_three
    linarith
  have hexp : Real.exp (-(3 * Real.pi / 2 / 2) / 1) <
      Real.exp (-(Real.sqrt (Real.log 2)) / 1) := by
    rw [Real.exp_lt_exp]
    have := sqrt_log_two_le_one
    simp only [div_one]
    linarith
  simp only [opticalFlowScore, specOpticalFlowScore, hstd,
    circStd_golden]
  intro h
  have hterm : (3:ℝ)/10 * Real.exp (-(3 * Real.pi / 2 / 2) / 1) <
      3/10 * Real.exp (-(Real.sqrt (Real.log 2)) / 1) := by
    linarith
  linarith

/-- C8 (amended): the optical-flow metric's score is exactly
`0.7 * exp(-m / 10) + 0.3 * exp(-a / 1)` where `m` is the mean per-pixel
displacement magnitude and `a` is the ordinary (linear, `np.std`)
standard deviation of the displacement direction array — not the circular
standard deviation. -/
theorem optical_flow_score_formula (cv : CV)
    (flowPolar : Img → Img → List ℝ × List ℝ) (frame1 frame2 : Img) :
    optical_flow_similarity cv flowPolar frame1 frame2 =
      7/10 * Real.exp
          (-npMean (flowPolar (cv.cvtGray frame1) (cv.cvtGray frame2)).1
            / 10) +
        3/10 * Real.exp
          (-npStd (flowPolar (cv.cvtGray frame1) (cv.cvtGray frame2)).2
            / 1) := rfl

end JFR
